import Mathlib

/-!
Verification development for the Smart Library System kiosk controller
(single CircuitPython source file).

The embedding models:
- the lending ledger (`users_db`, `books_db`, `borrowings`, `issue_book_logic`,
  `return_book_logic`, `calculate_days`) as pure state-passing functions over
  association lists mirroring Python dict semantics (insertion order, unique
  keys) and lists;
- the PIN-confirmation step of the authentication sub-flow;
- the scan loop (`perform_scan`) and its UTF-8 decode-or-stringify fallback,
  with the camera, frames and button reads supplied as explicit event inputs;
- the state-6 branch of the main loop that routes a scan result.

Timestamps are modelled as `Int` seconds (the value Python's `time.mktime`
returns for a `struct_time`); `//` on Python ints is floor division, embedded
as `Int.fdiv`.
-/

namespace SmartLibrary

/-- A record of `books_db`: title, total copy count, available copy count. -/
structure Book where
  title : String
  total : Nat
  available : Nat
deriving Repr, DecidableEq

/-- A record of `users_db`: display name, role, and the stored PIN secret
(`password` in the source). -/
structure User where
  name : String
  role : String
  password : String
deriving Repr, DecidableEq

/-- An entry of a `borrowings[user_id]` list: the borrowed isbn and the issue
timestamp (as seconds, the `time.mktime` image of the stored struct_time). -/
structure Borrowing where
  isbn : String
  issue_time : Int
deriving Repr, DecidableEq

/-- Python dict lookup (`d.get(k)` / `k in d` / `d[k]`), on an association
list kept in insertion order. -/
def dictGet? (k : String) : List (String × α) → Option α
  | [] => none
  | (k', v) :: t => if k' = k then some v else dictGet? k t

/-- Python dict assignment `d[k] = v`: replace the value at an existing key,
or append a fresh key at the end (dicts preserve insertion order). -/
def dictSet (k : String) (v : α) : List (String × α) → List (String × α)
  | [] => [(k, v)]
  | (k', v') :: t => if k' = k then (k, v) :: t else (k', v') :: dictSet k v t

/-- Python dict deletion `del d[k]` (keys are unique, so removing the first
occurrence is dict deletion). -/
def dictErase (k : String) : List (String × α) → List (String × α)
  | [] => []
  | (k', v') :: t => if k' = k then t else (k', v') :: dictErase k t

/-- The key list of a dict. -/
def keysOf (l : List (String × α)) : List String := l.map Prod.fst

/-- `users_db` from the source. -/
def users_db : List (String × User) :=
  [("01", ⟨"Amit Sharma", "Student", "1234"⟩),
   ("02", ⟨"Priya Verma", "Student", "5678"⟩)]

/-- The provisioned initial value of `books_db` from the source. -/
def books_db : List (String × Book) :=
  [("978-1", ⟨"Python Basics", 5, 5⟩),
   ("978-2", ⟨"Adv. Circuits", 3, 3⟩),
   ("978-3", ⟨"Data Science", 4, 2⟩),
   ("978-4", ⟨"ESP32 Guide", 6, 6⟩),
   ("978-5", ⟨"Calculus II", 2, 1⟩)]

/-- `book_keys = list(books_db.keys())` from the source. -/
def book_keys : List String := keysOf books_db

/-- The mutable ledger state: the current `books_db` and `borrowings` globals. -/
structure LedgerState where
  books : List (String × Book)
  borrowings : List (String × List Borrowing)
deriving Repr, DecidableEq

/-- The state at program start: the provisioned catalog and `borrowings = {}`. -/
def init_state : LedgerState := ⟨books_db, []⟩

/-- `test_delay_seconds = 17 * 86400` from the source's testing config. -/
def test_delay_seconds : Int := 17 * 86400

/-- Days between two second-counts, by Python floor division `// 86400`. -/
def days_held (now_sec issue_sec : Int) : Int := (now_sec - issue_sec).fdiv 86400

/-- `calculate_days` from the source: the clock it reads is
`time.mktime(now_time) + test_delay_seconds`, so the held time is measured
from `now_time_sec + test_delay_seconds`. -/
def calculate_days (now_time_sec issue_sec : Int) : Int :=
  days_held (now_time_sec + test_delay_seconds) issue_sec

/-- The fine charged for a book held `d` days: `max(0, d - 15) * 15`. -/
def fine_of_days (d : Int) : Int := max 0 (d - 15) * 15

/-- Outcome of `issue_book_logic`, abstracting the `(header, body, fine)`
message triple: the constructors mirror the four return sites, and `success`
carries the data interpolated into the message (title, due timestamp
`issue + 15 days`, remaining copies after the decrement). The fine component
of an issue is always 0 in the source. -/
inductive IssueOutcome
  | userNotFound
  | bookNotFound
  | noCopies
  | success (title : String) (due_sec : Int) (remaining : Nat)
deriving Repr, DecidableEq

/-- `issue_book_logic` from the source, with the global `now_time` passed as
`now_time_sec` and the mutation of the globals made explicit. -/
def issue_book_logic (now_time_sec : Int) (user_id isbn : String)
    (s : LedgerState) : IssueOutcome × LedgerState :=
  if (dictGet? user_id users_db).isNone then (.userNotFound, s)
  else
    match dictGet? isbn s.books with
    | none => (.bookNotFound, s)
    | some book =>
      if 0 < book.available then
        let book' : Book := { book with available := book.available - 1 }
        let cur := (dictGet? user_id s.borrowings).getD []
        (.success book.title (now_time_sec + 15 * 86400) book'.available,
         ⟨dictSet isbn book' s.books,
          dictSet user_id (cur ++ [⟨isbn, now_time_sec⟩]) s.borrowings⟩)
      else (.noCopies, s)

/-- The `for borrowing in borrowings[user_id]` search: first list entry whose
isbn matches. -/
def findBorrowing (isbn : String) : List Borrowing → Option Borrowing
  | [] => none
  | br :: t => if br.isbn = isbn then some br else findBorrowing isbn t

/-- `borrowings[user_id].remove(borrowing)` where `borrowing` is the first
entry with matching isbn: removes exactly that first match. -/
def removeFirstBorrowing (isbn : String) : List Borrowing → List Borrowing
  | [] => []
  | br :: t => if br.isbn = isbn then t else br :: removeFirstBorrowing isbn t

/-- Outcome of `return_book_logic`, abstracting the message triple: the
constructors mirror the four return sites; `returned` carries the fine and
the data interpolated into the message. -/
inductive ReturnOutcome
  | bookNotFound
  | noBorrowings
  | noSuchBorrowing
  | returned (title : String) (fine : Int) (now_available : Nat)
deriving Repr, DecidableEq

/-- `return_book_logic` from the source, with the global `now_time` passed as
`now_time_sec` and the mutation of the globals made explicit. -/
def return_book_logic (now_time_sec : Int) (user_id isbn : String)
    (s : LedgerState) : ReturnOutcome × LedgerState :=
  match dictGet? isbn s.books with
  | none => (.bookNotFound, s)
  | some book =>
    match dictGet? user_id s.borrowings with
    | none => (.noBorrowings, s)
    | some lst =>
      match findBorrowing isbn lst with
      | none => (.noSuchBorrowing, s)
      | some br =>
        let fine := fine_of_days (calculate_days now_time_sec br.issue_time)
        let book' : Book := { book with available := book.available + 1 }
        let lst' := removeFirstBorrowing isbn lst
        (.returned book.title fine book'.available,
         ⟨dictSet isbn book' s.books,
          if lst' = [] then dictErase user_id s.borrowings
          else dictSet user_id lst' s.borrowings⟩)

/-- Ledger states reachable from the provisioned initial state by any
sequence of issue and return operations (at arbitrary clock readings). -/
inductive Reachable : LedgerState → Prop
  | init : Reachable init_state
  | issue (now : Int) (u b : String) {s : LedgerState} :
      Reachable s → Reachable (issue_book_logic now u b s).2
  | ret (now : Int) (u b : String) {s : LedgerState} :
      Reachable s → Reachable (return_book_logic now u b s).2

/-! ### Association-list (dict) lemmas -/

theorem dictGet?_dictSet_self (k : String) (v : α) (l : List (String × α)) :
    dictGet? k (dictSet k v l) = some v := by
  induction l with
  | nil => simp [dictGet?, dictSet]
  | cons p t ih =>
    obtain ⟨k', v'⟩ := p
    by_cases h : k' = k
    · simp [dictGet?, dictSet, h]
    · simp [dictGet?, dictSet, h, ih]

theorem dictGet?_dictSet_ne {α : Type _} {k' k : String} (h : k' ≠ k)
    (v : α) (l : List (String × α)) :
    dictGet? k' (dictSet k v l) = dictGet? k' l := by
  induction l with
  | nil => simp [dictGet?, dictSet, Ne.symm h]
  | cons p t ih =>
    obtain ⟨k₀, v₀⟩ := p
    by_cases h0 : k₀ = k
    · subst h0
      simp [dictGet?, dictSet, Ne.symm h]
    · simp [dictGet?, dictSet, h0, ih]

theorem dictGet?_dictErase_ne {α : Type _} {k' k : String} (h : k' ≠ k)
    (l : List (String × α)) :
    dictGet? k' (dictErase k l) = dictGet? k' l := by
  induction l with
  | nil => simp [dictGet?, dictErase]
  | cons p t ih =>
    obtain ⟨k₀, v₀⟩ := p
    by_cases h0 : k₀ = k
    · subst h0
      simp [dictGet?, dictErase, Ne.symm h]
    · simp [dictGet?, dictErase, h0, ih]

theorem dictGet?_mem {α : Type _} {k : String} {v : α} {l : List (String × α)}
    (h : dictGet? k l = some v) : (k, v) ∈ l := by
  induction l with
  | nil => simp [dictGet?] at h
  | cons p t ih =>
    obtain ⟨k₀, v₀⟩ := p
    by_cases h0 : k₀ = k
    · subst h0
      simp [dictGet?] at h
      simp [h]
    · simp [dictGet?, h0] at h
      exact List.mem_cons_of_mem _ (ih h)

theorem mem_dictSet {α : Type _} {p : String × α} {k : String} {v : α}
    {l : List (String × α)} (h : p ∈ dictSet k v l) : p = (k, v) ∨ p ∈ l := by
  induction l with
  | nil =>
    simp [dictSet] at h
    exact Or.inl h
  | cons q t ih =>
    obtain ⟨k₀, v₀⟩ := q
    by_cases h0 : k₀ = k
    · simp [dictSet, h0] at h
      rcases h with h | h
      · exact Or.inl h
      · exact Or.inr (List.mem_cons_of_mem _ h)
    · simp [dictSet, h0] at h
      rcases h with h | h
      · exact Or.inr (by simp [h])
      · rcases ih h with h' | h'
        · exact Or.inl h'
        · exact Or.inr (List.mem_cons_of_mem _ h')

theorem mem_dictErase {α : Type _} {p : String × α} {k : String}
    {l : List (String × α)} (h : p ∈ dictErase k l) : p ∈ l := by
  induction l with
  | nil => simp [dictErase] at h
  | cons q t ih =>
    obtain ⟨k₀, v₀⟩ := q
    by_cases h0 : k₀ = k
    · simp [dictErase, h0] at h
      exact List.mem_cons_of_mem _ h
    · simp [dictErase, h0] at h
      rcases h with h | h
      · simp [h]
      · exact List.mem_cons_of_mem _ (ih h)

theorem dictGet?_isSome_dictSet {α : Type _} {k : String} {l : List (String × α)}
    (hk : (dictGet? k l).isSome = true) (v : α) (x : String) :
    (dictGet? x (dictSet k v l)).isSome = (dictGet? x l).isSome := by
  by_cases hx : x = k
  · subst hx
    simp [dictGet?_dictSet_self]
    cases hg : dictGet? x l
    · rw [hg] at hk; simp at hk
    · simp
  · rw [dictGet?_dictSet_ne hx]

/-! ### Borrowing-count lemmas -/

/-- Number of borrowings of a given isbn in one user's list. -/
def countIsbn (isbn : String) : List Borrowing → Nat
  | [] => 0
  | br :: t => (if br.isbn = isbn then 1 else 0) + countIsbn isbn t

/-- Number of active borrowings of a given isbn across all users. -/
def totalBorrowed (isbn : String) : List (String × List Borrowing) → Nat
  | [] => 0
  | (_, l) :: t => countIsbn isbn l + totalBorrowed isbn t

theorem countIsbn_append (isbn : String) (l₁ l₂ : List Borrowing) :
    countIsbn isbn (l₁ ++ l₂) = countIsbn isbn l₁ + countIsbn isbn l₂ := by
  induction l₁ with
  | nil => simp [countIsbn]
  | cons br t ih => simp [countIsbn, ih]; omega

theorem totalBorrowed_dictSet_some (isbn : String) (v : List Borrowing)
    (h : dictGet? u bs = some cur) :
    totalBorrowed isbn (dictSet u v bs) + countIsbn isbn cur
      = totalBorrowed isbn bs + countIsbn isbn v := by
  induction bs with
  | nil => simp [dictGet?] at h
  | cons p t ih =>
    obtain ⟨k₀, l₀⟩ := p
    by_cases h0 : k₀ = u
    · subst h0
      simp [dictGet?] at h
      subst h
      simp [dictSet, totalBorrowed]
      omega
    · simp [dictGet?, h0] at h
      simp [dictSet, h0, totalBorrowed]
      have := ih h
      omega

theorem totalBorrowed_dictSet_none (isbn : String) (v : List Borrowing)
    (h : dictGet? u bs = none) :
    totalBorrowed isbn (dictSet u v bs)
      = totalBorrowed isbn bs + countIsbn isbn v := by
  induction bs with
  | nil => simp [dictSet, totalBorrowed]
  | cons p t ih =>
    obtain ⟨k₀, l₀⟩ := p
    by_cases h0 : k₀ = u
    · simp [dictGet?, h0] at h
    · simp [dictGet?, h0] at h
      simp [dictSet, h0, totalBorrowed, ih h]
      omega

theorem totalBorrowed_dictErase (isbn : String)
    (h : dictGet? u bs = some cur) :
    totalBorrowed isbn (dictErase u bs) + countIsbn isbn cur
      = totalBorrowed isbn bs := by
  induction bs with
  | nil => simp [dictGet?] at h
  | cons p t ih =>
    obtain ⟨k₀, l₀⟩ := p
    by_cases h0 : k₀ = u
    · subst h0
      simp [dictGet?] at h
      subst h
      simp [dictErase, totalBorrowed]
      omega
    · simp [dictGet?, h0] at h
      simp [dictErase, h0, totalBorrowed]
      have := ih h
      omega

/-! ### findBorrowing / removeFirstBorrowing lemmas -/

theorem findBorrowing_some (h : findBorrowing isbn l = some br) :
    br ∈ l ∧ br.isbn = isbn := by
  induction l with
  | nil => simp [findBorrowing] at h
  | cons b t ih =>
    by_cases h0 : b.isbn = isbn
    · simp [findBorrowing, h0] at h
      subst h
      exact ⟨List.mem_cons_self _ _, h0⟩
    · simp [findBorrowing, h0] at h
      obtain ⟨hm, he⟩ := ih h
      exact ⟨List.mem_cons_of_mem _ hm, he⟩

theorem findBorrowing_eq_none_iff :
    findBorrowing isbn l = none ↔ ∀ br ∈ l, br.isbn ≠ isbn := by
  induction l with
  | nil => simp [findBorrowing]
  | cons b t ih =>
    by_cases h0 : b.isbn = isbn
    · simp [findBorrowing, h0]
    · simp [findBorrowing, h0, ih]

theorem findBorrowing_isSome_of_mem (hm : br ∈ l) (he : br.isbn = isbn) :
    (findBorrowing isbn l).isSome = true := by
  cases hf : findBorrowing isbn l
  · rw [findBorrowing_eq_none_iff] at hf
    exact absurd he (hf br hm)
  · simp

theorem countIsbn_removeFirst_self (h : findBorrowing isbn l = some br) :
    countIsbn isbn (removeFirstBorrowing isbn l) + 1 = countIsbn isbn l := by
  induction l with
  | nil => simp [findBorrowing] at h
  | cons b t ih =>
    by_cases h0 : b.isbn = isbn
    · simp [removeFirstBorrowing, countIsbn, h0]
      omega
    · simp [findBorrowing, h0] at h
      simp [removeFirstBorrowing, countIsbn, h0, ih h]

theorem countIsbn_removeFirst_ne (h : isbn' ≠ isbn) (l : List Borrowing) :
    countIsbn isbn' (removeFirstBorrowing isbn l) = countIsbn isbn' l := by
  induction l with
  | nil => simp [removeFirstBorrowing]
  | cons b t ih =>
    by_cases h0 : b.isbn = isbn
    · have hne : ¬ b.isbn = isbn' := by rw [h0]; exact Ne.symm h
      simp [removeFirstBorrowing, countIsbn, h0, hne]
      exact Ne.symm h
    · simp [removeFirstBorrowing, countIsbn, h0, ih]

theorem mem_removeFirstBorrowing (h : x ∈ removeFirstBorrowing isbn l) :
    x ∈ l := by
  induction l with
  | nil => simp [removeFirstBorrowing] at h
  | cons b t ih =>
    by_cases h0 : b.isbn = isbn
    · simp [removeFirstBorrowing, h0] at h
      exact List.mem_cons_of_mem _ h
    · simp [removeFirstBorrowing, h0] at h
      rcases h with h | h
      · simp [h]
      · exact List.mem_cons_of_mem _ (ih h)

theorem removeFirstBorrowing_eq_nil_count
    (h : removeFirstBorrowing isbn l = []) (h' : findBorrowing isbn l = some br) :
    countIsbn isbn l = 1 := by
  have := countIsbn_removeFirst_self h'
  rw [h] at this
  simpa [countIsbn] using this.symm

/-! ### Branch characterizations of the ledger operations -/

theorem issue_eq_of_user_none {u : String} (now : Int) (b : String)
    (s : LedgerState) (hu : dictGet? u users_db = none) :
    issue_book_logic now u b s = (.userNotFound, s) := by
  simp [issue_book_logic, hu]

theorem issue_eq_of_book_none {u b : String} (now : Int) (s : LedgerState)
    (hu : (dictGet? u users_db).isSome = true)
    (hb : dictGet? b s.books = none) :
    issue_book_logic now u b s = (.bookNotFound, s) := by
  simp [issue_book_logic, Option.isNone_iff_eq_none, hb,
    Option.isSome_iff_ne_none.mp hu]

theorem issue_eq_of_no_copies {u b : String} {book : Book} (now : Int)
    (s : LedgerState) (hu : (dictGet? u users_db).isSome = true)
    (hb : dictGet? b s.books = some book) (ha : book.available = 0) :
    issue_book_logic now u b s = (.noCopies, s) := by
  simp [issue_book_logic, Option.isNone_iff_eq_none, hb, ha,
    Option.isSome_iff_ne_none.mp hu]

theorem issue_eq_of_success {u b : String} {book : Book} (now : Int)
    (s : LedgerState) (hu : (dictGet? u users_db).isSome = true)
    (hb : dictGet? b s.books = some book) (ha : 0 < book.available) :
    issue_book_logic now u b s =
      (.success book.title (now + 15 * 86400) (book.available - 1),
       ⟨dictSet b { book with available := book.available - 1 } s.books,
        dictSet u ((dictGet? u s.borrowings).getD [] ++ [⟨b, now⟩])
          s.borrowings⟩) := by
  simp [issue_book_logic, Option.isNone_iff_eq_none, hb, ha,
    Option.isSome_iff_ne_none.mp hu]

theorem return_eq_of_book_none {b : String} (now : Int) (u : String)
    (s : LedgerState) (hb : dictGet? b s.books = none) :
    return_book_logic now u b s = (.bookNotFound, s) := by
  simp [return_book_logic, hb]

theorem return_eq_of_no_borrowings {u b : String} {book : Book} (now : Int)
    (s : LedgerState) (hb : dictGet? b s.books = some book)
    (hu : dictGet? u s.borrowings = none) :
    return_book_logic now u b s = (.noBorrowings, s) := by
  simp [return_book_logic, hb, hu]

theorem return_eq_of_no_match {u b : String} {book : Book}
    {cur : List Borrowing} (now : Int) (s : LedgerState)
    (hb : dictGet? b s.books = some book)
    (hu : dictGet? u s.borrowings = some cur)
    (hf : findBorrowing b cur = none) :
    return_book_logic now u b s = (.noSuchBorrowing, s) := by
  simp [return_book_logic, hb, hu, hf]

theorem return_eq_of_found {u b : String} {book : Book}
    {cur : List Borrowing} {br : Borrowing} (now : Int) (s : LedgerState)
    (hb : dictGet? b s.books = some book)
    (hu : dictGet? u s.borrowings = some cur)
    (hf : findBorrowing b cur = some br) :
    return_book_logic now u b s =
      (.returned book.title (fine_of_days (calculate_days now br.issue_time))
        (book.available + 1),
       ⟨dictSet b { book with available := book.available + 1 } s.books,
        if removeFirstBorrowing b cur = [] then dictErase u s.borrowings
        else dictSet u (removeFirstBorrowing b cur) s.borrowings⟩) := by
  simp [return_book_logic, hb, hu, hf]

/-! ### The ledger invariant and its preservation -/

/-- The inductive invariant of the ledger:
1. for every catalogued book, its available count plus the active borrowings
   of it (across all users) never exceeds its total copy count;
2. no borrowings key maps to an empty list;
3. every active borrowing is of a catalogued isbn. -/
def Inv (s : LedgerState) : Prop :=
  (∀ isbn book, dictGet? isbn s.books = some book →
      book.available + totalBorrowed isbn s.borrowings ≤ book.total) ∧
  (∀ p ∈ s.borrowings, p.2 ≠ []) ∧
  (∀ p ∈ s.borrowings, ∀ br ∈ p.2, (dictGet? br.isbn s.books).isSome = true)

theorem books_db_avail_le_total :
    ∀ p ∈ books_db, (Prod.snd p).available ≤ (Prod.snd p).total := by
  intro p hp
  simp [books_db] at hp
  rcases hp with rfl | rfl | rfl | rfl | rfl <;> decide

theorem Inv_init : Inv init_state := by
  refine ⟨?_, ?_, ?_⟩
  · intro isbn book h
    have hle := books_db_avail_le_total _ (dictGet?_mem h)
    simpa [init_state, totalBorrowed] using hle
  · intro p hp
    simp [init_state] at hp
  · intro p hp
    simp [init_state] at hp

theorem Inv_issue (now : Int) (u b : String) (s : LedgerState) (hs : Inv s) :
    Inv (issue_book_logic now u b s).2 := by
  obtain ⟨h1, h2, h3⟩ := hs
  unfold issue_book_logic
  by_cases hu : (dictGet? u users_db).isNone
  · simp [hu]
    exact ⟨h1, h2, h3⟩
  · simp [hu]
    cases hb : dictGet? b s.books with
    | none => exact ⟨h1, h2, h3⟩
    | some book =>
      by_cases ha : 0 < book.available
      · simp [ha]
        have hbsome : (dictGet? b s.books).isSome = true := by simp [hb]
        refine ⟨?_, ?_, ?_⟩
        · -- copies/borrowings accounting
          intro isbn book0 hbook0
          by_cases hib : isbn = b
          · subst hib
            rw [dictGet?_dictSet_self] at hbook0
            obtain rfl : ({ book with available := book.available - 1 } : Book)
                = book0 := by exact Option.some.inj hbook0
            have hcnt : totalBorrowed isbn
                (dictSet u ((dictGet? u s.borrowings).getD []
                  ++ [⟨isbn, now⟩]) s.borrowings)
                = totalBorrowed isbn s.borrowings + 1 := by
              cases hcur : dictGet? u s.borrowings with
              | none =>
                rw [totalBorrowed_dictSet_none _ _ hcur]
                simp [countIsbn]
              | some cur =>
                have := totalBorrowed_dictSet_some isbn (cur ++ [⟨isbn, now⟩]) hcur
                rw [countIsbn_append] at this
                simp [countIsbn] at this
                simp [hcur]
                omega
            have := h1 isbn book hb
            simp [hcnt]
            omega
          · rw [dictGet?_dictSet_ne hib] at hbook0
            have hcnt : totalBorrowed isbn
                (dictSet u ((dictGet? u s.borrowings).getD []
                  ++ [⟨b, now⟩]) s.borrowings)
                = totalBorrowed isbn s.borrowings := by
              cases hcur : dictGet? u s.borrowings with
              | none =>
                rw [totalBorrowed_dictSet_none _ _ hcur]
                simp [countIsbn, Ne.symm hib]
              | some cur =>
                have := totalBorrowed_dictSet_some isbn (cur ++ [⟨b, now⟩]) hcur
                rw [countIsbn_append] at this
                simp [countIsbn, Ne.symm hib] at this
                simp [hcur]
                omega
            have := h1 isbn book0 hbook0
            simp [hcnt]
            omega
        · -- no empty borrowing lists
          intro p hp
          rcases mem_dictSet hp with rfl | hp'
          · simp
          · exact h2 p hp'
        · -- borrowed isbns stay catalogued
          intro p hp br hbr
          rcases mem_dictSet hp with rfl | hp'
          · simp at hbr
            rcases hbr with hbr | rfl
            · cases hcur : dictGet? u s.borrowings with
              | none => simp [hcur] at hbr
              | some cur =>
                simp [hcur] at hbr
                rw [dictGet?_isSome_dictSet hbsome]
                exact h3 (u, cur) (dictGet?_mem hcur) br hbr
            · simp [dictGet?_dictSet_self]
          · rw [dictGet?_isSome_dictSet hbsome]
            exact h3 p hp' br hbr
      · simp [ha]
        exact ⟨h1, h2, h3⟩

theorem Inv_return (now : Int) (u b : String) (s : LedgerState) (hs : Inv s) :
    Inv (return_book_logic now u b s).2 := by
  obtain ⟨h1, h2, h3⟩ := hs
  cases hb : dictGet? b s.books with
  | none => rw [return_eq_of_book_none now u s hb]; exact ⟨h1, h2, h3⟩
  | some book =>
    cases hcur : dictGet? u s.borrowings with
    | none => rw [return_eq_of_no_borrowings now s hb hcur]; exact ⟨h1, h2, h3⟩
    | some cur =>
      cases hf : findBorrowing b cur with
      | none => rw [return_eq_of_no_match now s hb hcur hf]; exact ⟨h1, h2, h3⟩
      | some br =>
        rw [return_eq_of_found now s hb hcur hf]
        dsimp only
        have hbsome : (dictGet? b s.books).isSome = true := by simp [hb]
        have hrem := countIsbn_removeFirst_self hf
        refine ⟨?_, ?_, ?_⟩
        · intro isbn book0 hbook0
          dsimp only at hbook0 ⊢
          by_cases hib : isbn = b
          · subst hib
            rw [dictGet?_dictSet_self] at hbook0
            obtain rfl : ({ book with available := book.available + 1 } : Book)
                = book0 := Option.some.inj hbook0
            dsimp only
            have hcnt : totalBorrowed isbn
                (if removeFirstBorrowing isbn cur = []
                 then dictErase u s.borrowings
                 else dictSet u (removeFirstBorrowing isbn cur) s.borrowings) + 1
                = totalBorrowed isbn s.borrowings := by
              by_cases hnil : removeFirstBorrowing isbn cur = []
              · have hone := removeFirstBorrowing_eq_nil_count hnil hf
                have := totalBorrowed_dictErase isbn hcur
                simp [hnil]
                omega
              · have := totalBorrowed_dictSet_some isbn (removeFirstBorrowing isbn cur) hcur
                simp [hnil]
                omega
            have := h1 isbn book hb
            omega
          · rw [dictGet?_dictSet_ne hib] at hbook0
            have hcnt : totalBorrowed isbn
                (if removeFirstBorrowing b cur = []
                 then dictErase u s.borrowings
                 else dictSet u (removeFirstBorrowing b cur) s.borrowings)
                = totalBorrowed isbn s.borrowings := by
              have hkeep := countIsbn_removeFirst_ne hib cur
              by_cases hnil : removeFirstBorrowing b cur = []
              · have := totalBorrowed_dictErase isbn hcur
                rw [hnil] at hkeep
                simp [countIsbn] at hkeep
                simp [hnil]
                omega
              · have := totalBorrowed_dictSet_some isbn (removeFirstBorrowing b cur) hcur
                simp [hnil]
                omega
            have := h1 isbn book0 hbook0
            omega
        · intro p hp
          by_cases hnil : removeFirstBorrowing b cur = []
          · simp [hnil] at hp
            exact h2 p (mem_dictErase hp)
          · simp [hnil] at hp
            rcases mem_dictSet hp with rfl | hp'
            · exact hnil
            · exact h2 p hp'
        · intro p hp br0 hbr0
          rw [dictGet?_isSome_dictSet hbsome]
          by_cases hnil : removeFirstBorrowing b cur = []
          · simp [hnil] at hp
            exact h3 p (mem_dictErase hp) br0 hbr0
          · simp [hnil] at hp
            rcases mem_dictSet hp with rfl | hp'
            · exact h3 (u, cur) (dictGet?_mem hcur) br0
                (mem_removeFirstBorrowing hbr0)
            · exact h3 p hp' br0 hbr0

theorem reachable_Inv (s : LedgerState) (h : Reachable s) : Inv s := by
  induction h with
  | init => exact Inv_init
  | issue now u b hr ih => exact Inv_issue now u b _ ih
  | ret now u b hr ih => exact Inv_return now u b _ ih

/-! ### Authentication sub-flow: the PIN-confirm step (state 4, ok pressed) -/

/-- The session variables touched by the PIN-confirm branch of the main loop:
state tag (3=EnterID, 4=EnterPIN, 0=Menu, 1=ManualSelect, 5=BookConfirm,
2=Result, 7=QrPay, 6=Scan), the authenticated user, the identifier selected
at the ID step, the four PIN digit labels (as digit values 0-9), the PIN
cursor, and the menu cursor. -/
structure Session where
  current_state : Nat
  current_user : String
  temp_user_id : String
  pin_digits : List Nat
  pin_pos : Nat
  menu_index : Nat
deriving Repr, DecidableEq

/-- One digit label text, as its character. -/
def digitChar (d : Nat) : Char := Char.ofNat (48 + d % 10)

/-- The joined digit labels: Python's ''.join(d.text for d in pin_digits). -/
def joinDigits (ds : List Nat) : String := String.mk (ds.map digitChar)

/-- The ok-press branch of state 4: join the PIN digits and compare with the
stored password of `temp_user_id`. On match set `current_user`, reset the
menu cursor and go to state 0 (Menu); on mismatch zero every digit label,
reset the cursor and stay. `none` models the KeyError when `temp_user_id` is
not a users_db key (unreachable, since state 3 only accepts known ids). -/
def pin_confirm (s : Session) : Option Session :=
  match dictGet? s.temp_user_id users_db with
  | none => none
  | some user =>
    if joinDigits s.pin_digits = user.password then
      some { s with current_user := s.temp_user_id, menu_index := 0,
                    current_state := 0 }
    else
      some { s with pin_digits := s.pin_digits.map (fun _ => 0),
                    pin_pos := 0 }

/-! ### Scan loop and QR payload decoding -/

/-- Strict UTF-8 decoding of a byte list, as Python's bytes.decode("utf-8"):
rejects stray continuation bytes, overlong encodings, surrogates and
code points beyond U+10FFFF. `none` is the UnicodeDecodeError case. -/
def utf8Decode? : List Nat → Option (List Char)
  | [] => some []
  | b :: rest =>
    if b < 128 then
      match utf8Decode? rest with
      | some cs => some (Char.ofNat b :: cs)
      | none => none
    else if b < 194 then none
    else if b < 224 then
      match rest with
      | c1 :: rest2 =>
        if 128 ≤ c1 ∧ c1 < 192 then
          match utf8Decode? rest2 with
          | some cs => some (Char.ofNat ((b - 192) * 64 + (c1 - 128)) :: cs)
          | none => none
        else none
      | [] => none
    else if b < 240 then
      match rest with
      | c1 :: c2 :: rest2 =>
        if (128 ≤ c1 ∧ c1 < 192) ∧ (128 ≤ c2 ∧ c2 < 192) then
          if 2048 ≤ (b - 224) * 4096 + (c1 - 128) * 64 + (c2 - 128) ∧
              ((b - 224) * 4096 + (c1 - 128) * 64 + (c2 - 128) < 55296 ∨
               57344 ≤ (b - 224) * 4096 + (c1 - 128) * 64 + (c2 - 128)) then
            match utf8Decode? rest2 with
            | some cs =>
              some (Char.ofNat ((b - 224) * 4096 + (c1 - 128) * 64
                + (c2 - 128)) :: cs)
            | none => none
          else none
        else none
      | _ => none
    else if b < 245 then
      match rest with
      | c1 :: c2 :: c3 :: rest2 =>
        if (128 ≤ c1 ∧ c1 < 192) ∧ (128 ≤ c2 ∧ c2 < 192) ∧
            (128 ≤ c3 ∧ c3 < 192) then
          if 65536 ≤ (b - 240) * 262144 + (c1 - 128) * 4096 + (c2 - 128) * 64
              + (c3 - 128) ∧
              (b - 240) * 262144 + (c1 - 128) * 4096 + (c2 - 128) * 64
              + (c3 - 128) < 1114112 then
            match utf8Decode? rest2 with
            | some cs =>
              some (Char.ofNat ((b - 240) * 262144 + (c1 - 128) * 4096
                + (c2 - 128) * 64 + (c3 - 128)) :: cs)
            | none => none
          else none
        else none
      | _ => none
    else none

/-- A hexadecimal digit character, lowercase (Python's \xHH escapes). -/
def hexDigit (n : Nat) : Char :=
  if n < 10 then Char.ofNat (48 + n) else Char.ofNat (87 + n)

/-- One byte of Python's bytes repr, given the enclosing quote character. -/
def escapeByte (quote : Char) (b : Nat) : List Char :=
  if b = 92 then ['\\', '\\']
  else if b = 9 then ['\\', 't']
  else if b = 10 then ['\\', 'n']
  else if b = 13 then ['\\', 'r']
  else if b = quote.toNat then ['\\', quote]
  else if 32 ≤ b ∧ b < 127 then [Char.ofNat b]
  else ['\\', 'x', hexDigit (b / 16), hexDigit (b % 16)]

/-- Python's str(payload) for a bytes object: the repr, a string starting
with the character b, then a quote, the escaped bytes, and a closing quote.
Double quotes are used exactly when the bytes contain a single quote but no
double quote. -/
def pyReprBytes (bs : List Nat) : String :=
  let quote : Char := if bs.contains 39 ∧ ¬ bs.contains 34 then '"' else '\''
  String.mk ('b' :: quote :: (bs.flatMap (escapeByte quote) ++ [quote]))

/-- The decode-or-stringify fallback inside the scan loop:
payload.decode("utf-8"), and on UnicodeDecodeError str(payload). -/
def decode_payload (p : List Nat) : String :=
  match utf8Decode? p with
  | some cs => String.mk cs
  | none => pyReprBytes p

/-- One iteration's worth of external input to the scan loop: either frame
acquisition / QR decoding raises (caught, breaking the loop), or a frame is
captured and decoded into zero or more payloads, with the cancel button's
level sampled at the end of the iteration. -/
inductive ScanEvent
  | frameFail
  | frame (payloads : List (List Nat)) (cancel : Bool)
deriving Repr, DecidableEq

/-- The for-loop over decoded payloads: found_data ends as the decoding of
the last payload, or stays none when the frame held no QR code. -/
def lastPayloadDecoded (payloads : List (List Nat)) : Option String :=
  payloads.foldl (fun _ p => some (decode_payload p)) none

/-- The while-loop of perform_scan: returns the found payload string (none =
cancelled or capture failure) together with the number of frame captures
attempted. -/
def scanSteps : List ScanEvent → Option String × Nat
  | [] => (none, 0)
  | ScanEvent.frameFail :: _ => (none, 1)
  | ScanEvent.frame ps cancel :: rest =>
    match lastPayloadDecoded ps with
    | some d => (some d, 1)
    | none =>
      if cancel then (none, 1)
      else
        let r := scanSteps rest
        (r.1, r.2 + 1)

/-- perform_scan from the source: when the camera failed to initialize at
startup (cam is None), return None immediately, without entering the capture
loop; otherwise run the loop on the supplied events. The second component
counts frame-capture attempts. -/
def perform_scan (cam_ok : Bool) (events : List ScanEvent) :
    Option String × Nat :=
  if cam_ok then scanSteps events else (none, 0)

/-- The state-6 branch of the main loop, reduced to its state routing: a
scanned payload that is a books_db key goes to state 5 (BookConfirm), a
payload not in the catalog goes back to state 0 (Menu), and a None result
(cancelled scan, including the camera-unavailable degradation) goes to
state 1 (ManualSelect). -/
def scan_state_handler (books : List (String × Book))
    (scanned : Option String) : Nat :=
  match scanned with
  | some code => if (dictGet? code books).isSome then 5 else 0
  | none => 1

/-! ### Auxiliary lemmas for the claims -/

theorem findBorrowing_append_of_none {l : List Borrowing} {isbn : String}
    (h : ∀ x ∈ l, x.isbn ≠ isbn) (br : Borrowing) :
    findBorrowing isbn (l ++ [br])
      = if br.isbn = isbn then some br else none := by
  induction l with
  | nil => simp [findBorrowing]
  | cons b0 t ih =>
    have hb0 : b0.isbn ≠ isbn := h b0 (List.mem_cons_self _ _)
    simp [findBorrowing, hb0]
    exact ih (fun x hx => h x (List.mem_cons_of_mem _ hx))

theorem calculate_days_same (now : Int) : calculate_days now now = 17 := by
  unfold calculate_days days_held test_delay_seconds
  have h : now + 17 * 86400 - now = 17 * 86400 := by ring
  rw [h]
  decide

/-! ### Claims -/

/-- C1, counterexample: from the provisioned initial state, issuing book
978-1 to user 01 and returning it immediately at the same current time
yields a fine of 30, not 0 (the returned available count 5 does equal the
pre-issue value): calculate_days adds the configured test delay of 17 days
to the clock, so an immediate return is 17 days held and 2 days overdue. -/
theorem claim_C1_counterexample :
    (return_book_logic 0 "01" "978-1"
        (issue_book_logic 0 "01" "978-1" init_state).2).1
      = ReturnOutcome.returned "Python Basics" 30 5 ∧ (30 : Int) ≠ 0 :=
  ⟨by decide, by decide⟩

/-- C1, amended: for every user u known to users_db and book b in the ledger
with available(b) > 0, when u holds no prior borrowing of b, performing
Issue(u, b) and then immediately Return(u, b) at the same current time
yields a fine of 30 (not 0: calculate_days adds test_delay_seconds, 17
days, to the current time) and leaves b's available count equal to its
value before the Issue. -/
theorem claim_C1_theorem (s : LedgerState) (now : Int) (u b : String)
    (book : Book) (hu : (dictGet? u users_db).isSome = true)
    (hb : dictGet? b s.books = some book) (ha : 0 < book.available)
    (hfresh : ∀ br ∈ (dictGet? u s.borrowings).getD [], br.isbn ≠ b) :
    (return_book_logic now u b (issue_book_logic now u b s).2).1
      = ReturnOutcome.returned book.title 30 book.available ∧
    dictGet? b
        (return_book_logic now u b (issue_book_logic now u b s).2).2.books
      = some book := by
  rw [issue_eq_of_success now s hu hb ha]
  dsimp only
  have hb1 : dictGet? b
      (dictSet b { book with available := book.available - 1 } s.books)
      = some { book with available := book.available - 1 } :=
    dictGet?_dictSet_self b _ s.books
  have hu1 : dictGet? u
      (dictSet u ((dictGet? u s.borrowings).getD [] ++ [⟨b, now⟩])
        s.borrowings)
      = some ((dictGet? u s.borrowings).getD [] ++ [⟨b, now⟩]) :=
    dictGet?_dictSet_self u _ s.borrowings
  have hf1 : findBorrowing b
      ((dictGet? u s.borrowings).getD [] ++ [⟨b, now⟩])
      = some ⟨b, now⟩ := by
    rw [findBorrowing_append_of_none hfresh]
    simp
  rw [return_eq_of_found now _ hb1 hu1 hf1]
  dsimp only
  have hfine : fine_of_days (calculate_days now now) = 30 := by
    rw [calculate_days_same]
    decide
  have havail : book.available - 1 + 1 = book.available := by omega
  refine ⟨by rw [hfine, havail], ?_⟩
  rw [dictGet?_dictSet_self]
  cases book with
  | mk t tot av => simp at havail ⊢; omega

/-- C1, witness for the amended theorem: user 02 and book 978-5 (available
1) in the initial state; issue then immediate return at time 5 yields fine
30 and available back at 1. -/
theorem claim_C1_witness :
    ((dictGet? "02" users_db).isSome = true ∧
     dictGet? "978-5" init_state.books = some ⟨"Calculus II", 2, 1⟩) ∧
    ((return_book_logic 5 "02" "978-5"
        (issue_book_logic 5 "02" "978-5" init_state).2).1
      = ReturnOutcome.returned "Calculus II" 30 1 ∧
     dictGet? "978-5"
        (return_book_logic 5 "02" "978-5"
          (issue_book_logic 5 "02" "978-5" init_state).2).2.books
      = some ⟨"Calculus II", 2, 1⟩) :=
  ⟨⟨rfl, rfl⟩,
   claim_C1_theorem init_state 5 "02" "978-5" ⟨"Calculus II", 2, 1⟩ rfl rfl
     (by decide) (by intro br hbr; simp [init_state, dictGet?] at hbr)⟩

/-- C2: every successful Return charges
fine = max(0, daysHeld - 15) * 15 where daysHeld is the floor of
(now - issueTime) / 86400 for the clock reading now the code computes
(now_time + test_delay_seconds) and the matched borrowing's issue time; in
particular 15 days held is fine 0, 16 days is 15, and 30 days is 225. -/
theorem claim_C2_theorem (now : Int) (u b : String) (s : LedgerState)
    (t : String) (f : Int) (a : Nat)
    (h : (return_book_logic now u b s).1 = ReturnOutcome.returned t f a) :
    (∃ cur br, dictGet? u s.borrowings = some cur ∧
        findBorrowing b cur = some br ∧
        f = fine_of_days (days_held (now + test_delay_seconds)
              br.issue_time)) ∧
    fine_of_days 15 = 0 ∧ fine_of_days 16 = 15 ∧ fine_of_days 30 = 225 := by
  refine ⟨?_, by decide, by decide, by decide⟩
  cases hb : dictGet? b s.books with
  | none =>
    rw [return_eq_of_book_none now u s hb] at h
    simp at h
  | some book =>
    cases hcur : dictGet? u s.borrowings with
    | none =>
      rw [return_eq_of_no_borrowings now s hb hcur] at h
      simp at h
    | some cur =>
      cases hf : findBorrowing b cur with
      | none =>
        rw [return_eq_of_no_match now s hb hcur hf] at h
        simp at h
      | some br =>
        rw [return_eq_of_found now s hb hcur hf] at h
        dsimp only at h
        simp only [ReturnOutcome.returned.injEq] at h
        exact ⟨cur, br, rfl, hf, h.2.1.symm⟩

/-- C2, witness: user 02 issues 978-5 at time 0; returning at time
13 * 86400 (31 calendar days with the 17-day test delay, floor 30 days
held) charges fine 225. -/
theorem claim_C2_witness :
    ((return_book_logic (13 * 86400) "02" "978-5"
        (issue_book_logic 0 "02" "978-5" init_state).2).1
      = ReturnOutcome.returned "Calculus II" 225 1) ∧
    ((∃ cur br,
        dictGet? "02"
            (issue_book_logic 0 "02" "978-5" init_state).2.borrowings
          = some cur ∧
        findBorrowing "978-5" cur = some br ∧
        (225 : Int) = fine_of_days (days_held (13 * 86400 + test_delay_seconds)
              br.issue_time)) ∧
     fine_of_days 15 = 0 ∧ fine_of_days 16 = 15 ∧ fine_of_days 30 = 225) :=
  ⟨by decide,
   claim_C2_theorem (13 * 86400) "02" "978-5"
     (issue_book_logic 0 "02" "978-5" init_state).2
     "Calculus II" 225 1 (by decide)⟩

/-- C3: in every ledger state reachable from the provisioned initial state
by any sequence of Issue and Return operations, every catalogued book
satisfies 0 <= available <= total. -/
theorem claim_C3_theorem (s : LedgerState) (h : Reachable s) :
    ∀ isbn book, dictGet? isbn s.books = some book →
      0 ≤ book.available ∧ book.available ≤ book.total := by
  intro isbn book hb
  have hle := (reachable_Inv s h).1 isbn book hb
  exact ⟨Nat.zero_le _, by omega⟩

/-- C3, witness: the initial state is reachable, and book 978-1 there has
0 <= 5 <= 5. -/
theorem claim_C3_witness :
    dictGet? "978-1" init_state.books
      = some (⟨"Python Basics", 5, 5⟩ : Book) ∧
    (0 ≤ (⟨"Python Basics", 5, 5⟩ : Book).available ∧
      (⟨"Python Basics", 5, 5⟩ : Book).available
        ≤ (⟨"Python Basics", 5, 5⟩ : Book).total) :=
  ⟨rfl, claim_C3_theorem init_state Reachable.init "978-1" _ rfl⟩

/-- C4, counterexample: the reachable state obtained by issuing 978-1 to
user 01 twice has two active borrowings of the same (user, bookId) pair —
issue_book_logic appends a borrowing without checking for an existing one,
so tuple uniqueness fails. -/
theorem claim_C4_counterexample :
    Reachable (issue_book_logic 0 "01" "978-1"
        (issue_book_logic 0 "01" "978-1" init_state).2).2 ∧
    countIsbn "978-1"
        ((dictGet? "01"
          (issue_book_logic 0 "01" "978-1"
            (issue_book_logic 0 "01" "978-1" init_state).2).2.borrowings).getD
          []) = 2 :=
  ⟨Reachable.issue 0 "01" "978-1" (Reachable.issue 0 "01" "978-1"
      Reachable.init),
   by decide⟩

/-- C4, amended: a user may hold several simultaneous Borrowings of the
same book identifier (each Issue appends unconditionally); what does hold
in every reachable ledger state is that the active borrowings of each
catalogued book, across all users and hence per user, never exceed that
book's total copy count. -/
theorem claim_C4_theorem (s : LedgerState) (h : Reachable s)
    (isbn : String) (book : Book)
    (hb : dictGet? isbn s.books = some book) :
    totalBorrowed isbn s.borrowings ≤ book.total := by
  have hle := (reachable_Inv s h).1 isbn book hb
  omega

/-- C4, witness for the amended theorem: in the initial state book 978-1
has no active borrowings, within its total of 5. -/
theorem claim_C4_witness :
    dictGet? "978-1" init_state.books
      = some (⟨"Python Basics", 5, 5⟩ : Book) ∧
    totalBorrowed "978-1" init_state.borrowings
      ≤ (⟨"Python Basics", 5, 5⟩ : Book).total :=
  ⟨rfl, claim_C4_theorem init_state Reachable.init "978-1" _ rfl⟩

/-- C5: for every known user u and catalogued book b with available(b) = 0,
Issue(u, b) returns the no-copies outcome and leaves the whole ledger state
(catalog and borrowings) unchanged. -/
theorem claim_C5_theorem (now : Int) (u b : String) (s : LedgerState)
    (book : Book) (hu : (dictGet? u users_db).isSome = true)
    (hb : dictGet? b s.books = some book) (ha : book.available = 0) :
    issue_book_logic now u b s = (IssueOutcome.noCopies, s) :=
  issue_eq_of_no_copies now s hu hb ha

/-- C5, witness: after user 02 issues the last copy of 978-5, a further
Issue of 978-5 by user 01 returns noCopies and leaves the state intact. -/
theorem claim_C5_witness :
    ((dictGet? "01" users_db).isSome = true ∧
     dictGet? "978-5"
        (issue_book_logic 0 "02" "978-5" init_state).2.books
      = some (⟨"Calculus II", 2, 0⟩ : Book)) ∧
    issue_book_logic 7 "01" "978-5"
        (issue_book_logic 0 "02" "978-5" init_state).2
      = (IssueOutcome.noCopies,
         (issue_book_logic 0 "02" "978-5" init_state).2) :=
  ⟨⟨rfl, by decide⟩,
   claim_C5_theorem 7 "01" "978-5"
     (issue_book_logic 0 "02" "978-5" init_state).2
     ⟨"Calculus II", 2, 0⟩ rfl (by decide) rfl⟩

/-- C6: in every reachable state, Return(u, b) returns bookNotFound when b
is not catalogued; otherwise noBorrowings when u has no borrowings entry;
otherwise noSuchBorrowing when u's borrowings contain none for b; each of
these outcomes leaves the ledger unchanged; and a returned outcome occurs
exactly when an active Borrowing for (u, b) exists. -/
theorem claim_C6_theorem (s : LedgerState) (hs : Reachable s) (now : Int)
    (u b : String) :
    (dictGet? b s.books = none →
        return_book_logic now u b s = (ReturnOutcome.bookNotFound, s)) ∧
    ((dictGet? b s.books).isSome = true → dictGet? u s.borrowings = none →
        return_book_logic now u b s = (ReturnOutcome.noBorrowings, s)) ∧
    (∀ cur, (dictGet? b s.books).isSome = true →
        dictGet? u s.borrowings = some cur → (∀ br ∈ cur, br.isbn ≠ b) →
        return_book_logic now u b s = (ReturnOutcome.noSuchBorrowing, s)) ∧
    ((∃ t f a, (return_book_logic now u b s).1
        = ReturnOutcome.returned t f a) ↔
      (∃ cur br, dictGet? u s.borrowings = some cur ∧ br ∈ cur ∧
        br.isbn = b)) := by
  refine ⟨?_, ?_, ?_, ?_, ?_⟩
  · intro hb
    exact return_eq_of_book_none now u s hb
  · intro hb hcur
    obtain ⟨book, hb'⟩ := Option.isSome_iff_exists.mp hb
    exact return_eq_of_no_borrowings now s hb' hcur
  · intro cur hb hcur hnone
    obtain ⟨book, hb'⟩ := Option.isSome_iff_exists.mp hb
    exact return_eq_of_no_match now s hb' hcur
      (findBorrowing_eq_none_iff.mpr hnone)
  · rintro ⟨t, f, a, hret⟩
    cases hb : dictGet? b s.books with
    | none =>
      rw [return_eq_of_book_none now u s hb] at hret
      simp at hret
    | some book =>
      cases hcur : dictGet? u s.borrowings with
      | none =>
        rw [return_eq_of_no_borrowings now s hb hcur] at hret
        simp at hret
      | some cur =>
        cases hf : findBorrowing b cur with
        | none =>
          rw [return_eq_of_no_match now s hb hcur hf] at hret
          simp at hret
        | some br =>
          obtain ⟨hmem, hisbn⟩ := findBorrowing_some hf
          exact ⟨cur, br, rfl, hmem, hisbn⟩
  · rintro ⟨cur, br, hcur, hmem, hisbn⟩
    have h3 := (reachable_Inv s hs).2.2
    have hbk := h3 (u, cur) (dictGet?_mem hcur) br hmem
    rw [hisbn] at hbk
    obtain ⟨book, hb'⟩ := Option.isSome_iff_exists.mp hbk
    obtain ⟨br', hf⟩ := Option.isSome_iff_exists.mp
      (findBorrowing_isSome_of_mem hmem hisbn)
    rw [return_eq_of_found now s hb' hcur hf]
    exact ⟨_, _, _, rfl⟩

/-- C6, witness: at the reachable initial state (no borrowings), Return by
user 01 of 978-1 satisfies the whole contract; in particular it returns
noBorrowings and changes nothing. -/
theorem claim_C6_witness :
    (dictGet? "978-1" init_state.books = none →
        return_book_logic 0 "01" "978-1" init_state
          = (ReturnOutcome.bookNotFound, init_state)) ∧
    ((dictGet? "978-1" init_state.books).isSome = true →
        dictGet? "01" init_state.borrowings = none →
        return_book_logic 0 "01" "978-1" init_state
          = (ReturnOutcome.noBorrowings, init_state)) ∧
    (∀ cur, (dictGet? "978-1" init_state.books).isSome = true →
        dictGet? "01" init_state.borrowings = some cur →
        (∀ br ∈ cur, br.isbn ≠ "978-1") →
        return_book_logic 0 "01" "978-1" init_state
          = (ReturnOutcome.noSuchBorrowing, init_state)) ∧
    ((∃ t f a, (return_book_logic 0 "01" "978-1" init_state).1
        = ReturnOutcome.returned t f a) ↔
      (∃ cur br, dictGet? "01" init_state.borrowings = some cur ∧
        br ∈ cur ∧ br.isbn = "978-1")) :=
  claim_C6_theorem init_state Reachable.init 0 "01" "978-1"

/-- C7: on PIN confirm, the joined digits are compared with the stored
secret of the user selected at the ID step; on match the session's
authenticated user becomes that identifier and the state becomes Menu
(state 0); on mismatch the machine stays in EnterPIN (state 4) with every
PIN digit reset to zero and the cursor at position 0, and the
authenticated user unchanged. -/
theorem claim_C7_theorem (s : Session) (user : User)
    (hstate : s.current_state = 4)
    (huser : dictGet? s.temp_user_id users_db = some user) :
    (joinDigits s.pin_digits = user.password →
      pin_confirm s = some { s with current_user := s.temp_user_id,
                                    menu_index := 0, current_state := 0 }) ∧
    (joinDigits s.pin_digits ≠ user.password →
      ∃ s', pin_confirm s = some s' ∧ s'.current_state = 4 ∧
        (∀ d ∈ s'.pin_digits, d = 0) ∧ s'.pin_pos = 0 ∧
        s'.current_user = s.current_user) := by
  constructor
  · intro hok
    simp [pin_confirm, huser, hok]
  · intro hne
    refine ⟨{ s with pin_digits := s.pin_digits.map (fun _ => 0),
                     pin_pos := 0 }, ?_, ?_, ?_, rfl, rfl⟩
    · simp [pin_confirm, huser, hne]
    · simpa using hstate
    · intro d hd
      simp at hd
      exact hd.2

/-- C7, witness: enter PIN 9999 for user 01 whose stored secret is 1234:
the confirm step stays in state 4 with digits reset to zero and cursor at
0, and the session stays unauthenticated. -/
theorem claim_C7_witness :
    ((⟨4, "", "01", [9, 9, 9, 9], 2, 1⟩ : Session).current_state = 4 ∧
     dictGet? (⟨4, "", "01", [9, 9, 9, 9], 2, 1⟩ : Session).temp_user_id
        users_db = some (⟨"Amit Sharma", "Student", "1234"⟩ : User) ∧
     joinDigits [9, 9, 9, 9] = "9999") ∧
    (∃ s', pin_confirm (⟨4, "", "01", [9, 9, 9, 9], 2, 1⟩ : Session)
        = some s' ∧ s'.current_state = 4 ∧ (∀ d ∈ s'.pin_digits, d = 0) ∧
        s'.pin_pos = 0 ∧ s'.current_user = "") :=
  ⟨⟨rfl, rfl, by decide⟩,
   (claim_C7_theorem ⟨4, "", "01", [9, 9, 9, 9], 2, 1⟩
       ⟨"Amit Sharma", "Student", "1234"⟩ rfl rfl).2 (by decide)⟩

/-- C8: when the scan subsystem failed to initialize at startup (cam is
None), every scan request captures zero frames, returns None exactly like a
cancelled scan, and the main loop routes the session to state 1, manual
book selection — for any subsequent frame events and any catalog. -/
theorem claim_C8_theorem (events : List ScanEvent)
    (books : List (String × Book)) :
    perform_scan false events = (none, 0) ∧
    scan_state_handler books (perform_scan false events).1 = 1 := by
  constructor <;> simp [perform_scan, scan_state_handler]

/-- C9: when UTF-8 decoding of a raw scanned byte payload fails, the scan
loop does not abort: the payload degrades to Python's best-effort bytes
repr (a string starting with the character b), and that fallback string
differs from every book identifier in the catalog. -/
theorem claim_C9_theorem (p : List Nat) (h : utf8Decode? p = none) :
    decode_payload p = pyReprBytes p ∧
    ∀ isbn ∈ book_keys, decode_payload p ≠ isbn := by
  have hd : decode_payload p = pyReprBytes p := by
    simp [decode_payload, h]
  refine ⟨hd, ?_⟩
  intro isbn hm heq
  rw [hd] at heq
  have hh : (pyReprBytes p).data.head? = isbn.data.head? :=
    congrArg (fun s : String => s.data.head?) heq
  have hb : (pyReprBytes p).data.head? = some 'b' := rfl
  rw [hb] at hh
  simp [book_keys, keysOf, books_db] at hm
  rcases hm with rfl | rfl | rfl | rfl | rfl <;> exact absurd hh (by decide)

/-- C9, witness: the single byte 0xFF is not valid UTF-8; its decoding
falls back to the bytes repr and matches no catalogued identifier. -/
theorem claim_C9_witness :
    utf8Decode? [255] = none ∧
    (decode_payload [255] = pyReprBytes [255] ∧
      ∀ isbn ∈ book_keys, decode_payload [255] ≠ isbn) :=
  ⟨rfl, claim_C9_theorem [255] rfl⟩

/-- C10: in every reachable ledger state, no borrowings key maps to an
empty list, and a user identifier is a key of the borrowings map exactly
when that user holds at least one active Borrowing. -/
theorem claim_C10_theorem (s : LedgerState) (hs : Reachable s)
    (u : String) :
    (∀ cur, dictGet? u s.borrowings = some cur → cur ≠ []) ∧
    ((∃ cur, dictGet? u s.borrowings = some cur) ↔
      ∃ cur br, dictGet? u s.borrowings = some cur ∧ br ∈ cur) := by
  have h2 := (reachable_Inv s hs).2.1
  refine ⟨?_, ?_, ?_⟩
  · intro cur hcur
    exact h2 (u, cur) (dictGet?_mem hcur)
  · rintro ⟨cur, hcur⟩
    obtain ⟨br, hmem⟩ :=
      List.exists_mem_of_ne_nil cur (h2 (u, cur) (dictGet?_mem hcur))
    exact ⟨cur, br, hcur, hmem⟩
  · rintro ⟨cur, br, hcur, _⟩
    exact ⟨cur, hcur⟩

/-- C10, witness: in the reachable initial state, user 01 has no borrowings
entry and the key-presence equivalence holds (both sides false). -/
theorem claim_C10_witness :
    (∀ cur, dictGet? "01" init_state.borrowings = some cur → cur ≠ []) ∧
    ((∃ cur, dictGet? "01" init_state.borrowings = some cur) ↔
      ∃ cur br, dictGet? "01" init_state.borrowings = some cur ∧
        br ∈ cur) :=
  claim_C10_theorem init_state Reachable.init "01"

end SmartLibrary
